import Mathlib

/-!
Shallow embedding of `src/parser.py` (HTTPfs): the HTML directory-listing
parser (`Directory.contents`), the metadata resolver (`File.__init__`) and
the block-cached range reader (`File.read`), together with theorems settling
the specification claims about them.

Conventions of the embedding:
* bytes are `List Nat`; HTTP responses are explicit records;
* the HTTP session is a pure function supplied as a parameter
  (range server for `File.read`, page table for listing GETs);
* a Python call either returns a value or raises; raises are modelled by
  `Py.exc` tagged with the exception's name (`FuseOSError(EIO)` is the
  deliberate I/O error, the other tags are unhandled exceptions);
* `time.mktime(strptime ...)` is modelled symbolically: a timestamp value
  records which source produced it (header / listing column / current time)
  and the raw string it was parsed from, since the claims only concern which
  source wins, not calendar arithmetic.
-/

namespace HTTPfs

/-- Result of a Python call: a returned value, or a raised exception tagged
with the exception's name. -/
inductive Py (α : Type) where
  | ok : α → Py α
  | exc : String → Py α
deriving DecidableEq

/-- File bytes, one natural number per byte. -/
abbrev Bytes := List Nat

/-- Python slice `b[i:j]` for non-negative bounds `i ≤ j` (the only shape the
read path produces). -/
def pySlice (b : Bytes) (i j : Nat) : Bytes := (b.drop i).take (j - i)

/-- An HTTP response to a content GET: status code and body. -/
structure RangeResp where
  status : Nat
  content : Bytes
deriving DecidableEq

/-- `self.readbuffer` (line 49): block index to cached block bytes; the
`defaultdict(lambda: None)` is a total function into `Option`. -/
def BlockCache := Nat → Option Bytes

/-- A fresh read buffer: no block cached. -/
def emptyBC : BlockCache := fun _ => none

/-- Outcome of one `File.read` call: the result, the updated block cache and
the byte ranges requested over HTTP during the call (in order). -/
structure ReadOut where
  res : Py Bytes
  cache : BlockCache
  reqs : List (Nat × Nat)

/-- Line 101: `offset_from_mb = (((offset // 1024) % 1024) * 1024) + (offset % 1024)`. -/
def offset_from_mb (offset : Nat) : Nat :=
  ((offset / 1024) % 1024) * 1024 + offset % 1024

/-- `File.read(length, offset)`, lines 88-133 of `src/parser.py`.
`server` models `self.session.get` with a `range: bytes=lo-hi` header,
`probeStatus` is `self.r.status_code` left over from `File.__init__`
(line 63), `size` is `self.size`. The model assumes `offset + length ≥ 1`
(the filesystem read contract has positive length) so that the natural
subtraction in `offset + length - 1` agrees with Python. -/
def fileRead (server : Nat × Nat → RangeResp) (probeStatus size : Nat)
    (cache : BlockCache) (length offset : Nat) : ReadOut :=
  let mb_start := offset / 1024 / 1024
  let mb_end := (offset + length) / 1024 / 1024
  if mb_start = mb_end then
    match cache mb_start with
    | some buf =>
        ⟨.ok (pySlice buf (offset_from_mb offset) (offset_from_mb offset + length)),
         cache, []⟩
    | none =>
        -- line 107: the upper bound is `mb_start*1024*1024 + 1023*1024`
        let lo := mb_start * 1024 * 1024
        let hi := mb_start * 1024 * 1024 + 1023 * 1024
        let r := server (lo, hi)
        if r.status = 200 ∨ r.status = 206 then
          ⟨.ok (pySlice r.content (offset_from_mb offset) (offset_from_mb offset + length)),
           fun i => if i = mb_start then some r.content else cache i, [(lo, hi)]⟩
        else
          ⟨.exc "FuseOSError(EIO)", cache, [(lo, hi)]⟩
  else
    let lo := offset
    let hi := min size (offset + length - 1)
    let r := server (lo, hi)
    -- line 129 tests `self.r.status_code == 200 or r.status_code == 206`
    if probeStatus = 200 ∨ r.status = 206 then
      ⟨.ok r.content, cache, [(lo, hi)]⟩
    else
      ⟨.exc "FuseOSError(EIO)", cache, [(lo, hi)]⟩

/-- A range-compliant HTTP server for a file whose bytes are `data`: every
range request `lo-hi` is answered 206 with bytes `lo` through
`min hi (data.length - 1)`. -/
def rangeServer (data : Bytes) : Nat × Nat → RangeResp :=
  fun p => ⟨206, pySlice data p.1 (p.2 + 1)⟩

/-- A server whose every response is a 404 with a 3-byte error page. -/
def errServer : Nat × Nat → RangeResp := fun _ => ⟨404, [9, 9, 9]⟩

/-- A server answering every request 200 with a 1-byte body. -/
def okServer : Nat × Nat → RangeResp := fun _ => ⟨200, [7]⟩

/-- A server answering every request 206 with a 2-byte body. -/
def tinyServer : Nat × Nat → RangeResp := fun _ => ⟨206, [5, 5]⟩

/-! ## Model of the parsed listing HTML

`Directory.contents` and the mtime fallback loop navigate the
BeautifulSoup tree only through `tr` rows, their `td` cells, each cell's
first `img` (and its `alt` attribute), its anchor `a` (and its `.string`),
and the cell's own `.string`. A page is therefore modelled as the list of
its rows, a row as its list of `td` cells, and a cell by those three
accessors; a missing node or attribute is `none`, exactly the case where
BeautifulSoup hands back `None` and the Python code crashes. -/

/-- One `td` cell: `img` is the alt text of its first `img` child (outer
`Option`: is there an `img`; inner: does it carry an `alt` attribute), `a`
is its first anchor and that anchor's `.string`, and `str` is the cell's
own `.string` (the text of the last-modified column). -/
structure Cell where
  img : Option (Option String)
  a : Option (Option String)
  str : Option String
deriving DecidableEq

/-- One `tr` row, as the list of its `td` cells: `x.td` is `cells.head?`,
`x.find_all('td')[i]` is `cells.get? i`. Rows without any `td` (header
rows) have `cells = []`. -/
structure Row where
  cells : List Cell
deriving DecidableEq

/-- A parsed directory entry: `(name, is_directory)`. -/
abbrev Listing := List (String × Bool)

/-- Python `s.strip("/")`: remove `/` from both ends. -/
def pyStripSlash (s : String) : String :=
  String.mk (((s.data.dropWhile (· == '/')).reverse.dropWhile (· == '/')).reverse)

/-- Python `s.strip()`: remove whitespace from both ends. -/
def pyStrip (s : String) : String :=
  String.mk (((s.data.dropWhile (·.isWhitespace)).reverse.dropWhile (·.isWhitespace)).reverse)

/-- Python `sub in s`: substring containment. -/
def pyIn (sub s : String) : Bool :=
  s.data.tails.any fun t => sub.data.isPrefixOf t

/-- The loop body of `Directory.contents` (lines 34-37) for one row:
`ok none` when the row is skipped (no `td`, or `[PARENTDIR]` icon),
`ok (some entry)` when an entry is appended, and `exc` when the Python
expression raises (`None['alt']` is a TypeError, a missing `alt` attribute
a KeyError, `find_all('td')[1]` an IndexError, `None.string` an
AttributeError). -/
def processRow (r : Row) : Py (Option (String × Bool)) :=
  match r.cells.head? with
  | none => .ok none
  | some c0 =>
    match c0.img with
    | none => .exc "TypeError"
    | some none => .exc "KeyError"
    | some (some alt) =>
      if alt == "[PARENTDIR]" then .ok none
      else
        match r.cells.get? 1 with
        | none => .exc "IndexError"
        | some c1 =>
          match c1.a with
          | none => .exc "AttributeError"
          | some none => .exc "AttributeError"
          | some (some s) => .ok (some (pyStripSlash s, alt == "[DIR]"))

/-- The `for x in parsed.find_all("tr")` loop of `Directory.contents`,
threading the accumulated entry list. -/
def contentsAux : List Row → Listing → Py Listing
  | [], acc => .ok acc
  | r :: rest, acc =>
    match processRow r with
    | .exc e => .exc e
    | .ok none => contentsAux rest acc
    | .ok (some ent) => contentsAux rest (acc ++ [ent])

/-- `Directory.contents` (lines 21-39): the synthetic "." and ".." entries
followed by one entry per accepted table row. -/
def contents (page : List Row) : Py Listing :=
  contentsAux page [(".", true), ("..", true)]

/-! Claim-side (spec-worded) accessors for C8, kept separate from the
source translation above so the two can be compared. -/

/-- The row's icon alt text (claim wording), defaulting to "". -/
def altOf (r : Row) : String :=
  match r.cells.head? with
  | some c0 =>
    match c0.img with
    | some (some alt) => alt
    | _ => ""
  | none => ""

/-- The row's link text (claim wording), defaulting to "". -/
def linkTextOf (r : Row) : String :=
  match r.cells.get? 1 with
  | some c1 =>
    match c1.a with
    | some (some s) => s
    | _ => ""
  | none => ""

/-- Strip trailing path separators only — the claim's wording. -/
def stripTrailing (s : String) : String :=
  String.mk ((s.data.reverse.dropWhile (· == '/')).reverse)

/-- The entry the claim says a kept row produces: link text with trailing
separators stripped, flagged as a directory iff the icon alt is `[DIR]`. -/
def entrySpec (r : Row) : String × Bool :=
  (stripTrailing (linkTextOf r), altOf r == "[DIR]")

/-- Does the string not start with a path separator? (Auto-index link
texts are relative names.) -/
def noLead (s : String) : Bool :=
  match s.data with
  | c :: _ => !(c == '/')
  | [] => true

/-- A well-formed directory-index row in the common auto-index convention:
an icon cell with alt text, and — unless the row is the `[PARENTDIR]` one —
a link cell holding an anchor with a relative (no leading separator)
display name. -/
def wfRow (r : Row) : Bool :=
  match r.cells.head? with
  | none => false
  | some c0 =>
    match c0.img with
    | some (some alt) =>
      (alt == "[PARENTDIR]") ||
      (match r.cells.get? 1 with
       | some c1 =>
         match c1.a with
         | some (some s) => noLead s
         | _ => false
       | none => false)
    | _ => false

/-- A well-formed directory-index page: every row is well-formed. -/
def wellFormed (page : List Row) : Bool := page.all wfRow

/-! ## Model of `File.__init__` (metadata resolution) -/

/-- An HTTP request issued during metadata resolution: a GET of a
directory-listing page, or the HEAD probe. -/
inductive Req where
  | listGet : String → Req
  | headReq : String → Req
deriving DecidableEq

/-- `httpfs.readdir_cache`: directory path to its parsed listing. -/
def NsCache := String → Option Listing

/-- A fresh session cache: nothing listed yet. -/
def emptyNs : NsCache := fun _ => none

/-- Outcome of the cache-or-fetch step: result, updated session cache, and
the listing GETs issued. -/
structure NsOut where
  res : Py Listing
  cache : NsCache
  reqs : List Req

/-- Lines 55-56: if `parent_dir` is not a key of `readdir_cache`, fetch and
parse its listing and store it; otherwise reuse the stored listing. A parse
crash propagates before the assignment, leaving the cache unchanged. -/
def nsLookup (pageFor : String → List Row) (cache : NsCache) (p : String) : NsOut :=
  match cache p with
  | some l => ⟨.ok l, cache, []⟩
  | none =>
    match contents (pageFor p) with
    | .ok l => ⟨.ok l, fun q => if q = p then some l else cache q, [.listGet p]⟩
    | .exc e => ⟨.exc e, cache, [.listGet p]⟩

/-- Outcome of a whole sequence of cache lookups. -/
structure RunOut where
  cache : NsCache
  reqs : List Req

/-- A session fragment: the listing lookups performed, in order, each one
going through `nsLookup` against the session cache. -/
def nsRun (pageFor : String → List Row) (cache : NsCache) : List String → RunOut
  | [] => ⟨cache, []⟩
  | p :: ps =>
    let o := nsLookup pageFor cache p
    let rest := nsRun pageFor o.cache ps
    ⟨rest.cache, o.reqs ++ rest.reqs⟩

/-- How many listing GETs for path `p` a request trace contains. -/
def countListGet (p : String) (reqs : List Req) : Nat :=
  reqs.countP fun r =>
    match r with
    | .listGet q => q == p
    | _ => false

/-- Python `path.split("/")` (single-character separator). -/
def splitCh : List Char → List (List Char)
  | [] => [[]]
  | c :: cs =>
    match splitCh cs with
    | [] => [[]]
    | h :: t => if c = '/' then [] :: h :: t else (c :: h) :: t

/-- Python `"/".join(parts)`. -/
def joinCh : List (List Char) → List Char
  | [] => []
  | [l] => l
  | l :: ls => l ++ '/' :: joinCh ls

/-- Line 53: `"/".join(self.path.split("/")[:-1])`. -/
def parentOf (path : String) : String :=
  String.mk (joinCh (splitCh path.data).dropLast)

/-- Line 54: `self.path.split("/")[-1]`. -/
def fileNameOf (path : String) : String :=
  String.mk ((splitCh path.data).getLastD [])

/-- A modification-time value, recorded symbolically by its source:
`headerTime s` is `mktime(strptime(s, RFC-1123 format))` from the
`Last-Modified` header, `nowTime` is `time.time()`, and `listingTime s` is
`mktime(strptime(s, "%Y-%m-%d %H:%M"))` from the listing's last-modified
column. Calendar arithmetic is not modelled; the claims only concern which
source produced the value. -/
inductive MTimeVal where
  | headerTime : String → MTimeVal
  | nowTime : MTimeVal
  | listingTime : String → MTimeVal
deriving DecidableEq

/-- The HEAD probe response (line 63): status plus the two headers read.
`contentLength` is `headers['Content-Length']` already converted by
`int(...)`, `lastModified` the raw `headers['Last-Modified']` string. -/
structure ProbeResp where
  status : Nat
  contentLength : Option Nat
  lastModified : Option String
deriving DecidableEq

/-- The metadata a resolved `File` carries: directory flag, size, and the
(possibly absent) modification time. When the probe fails the Python code
never assigns `self.mtime` at all; that absent attribute is modelled as
`none` here. -/
structure FileRec where
  is_dir : Bool
  size : Nat
  mtime : Option MTimeVal
deriving DecidableEq

/-- The directory-flagged names of a listing (line 58). -/
def dirNames (l : Listing) : List String :=
  (l.filter (·.2)).map (·.1)

/-- Line 59: the name is among the listing's directories, or is empty
(the mount root). -/
def isDirName (l : Listing) (filename : String) : Bool :=
  (dirNames l).contains filename || filename == ""

/-- Line 62: the probe URL, with a trailing separator for directories. -/
def urlOf (root path : String) (d : Bool) : String :=
  root ++ "/" ++ path ++ (if d then "/" else "")

/-- The body of the mtime-fallback loop (lines 79-83) for one row: `ok
(some ds)` when the row's name contains `filename` and its third cell
yields the stripped date text `ds`; crash tags follow the Python
expressions (`None['alt']`, `filename in None`, `None.strip()`, missing
cells). -/
def scanRow (filename : String) (r : Row) : Py (Option String) :=
  match r.cells.head? with
  | none => .ok none
  | some c0 =>
    match c0.img with
    | none => .exc "TypeError"
    | some none => .exc "KeyError"
    | some (some alt) =>
      if alt == "[PARENTDIR]" then .ok none
      else
        match r.cells.get? 1 with
        | none => .exc "IndexError"
        | some c1 =>
          match c1.a with
          | none => .exc "AttributeError"
          | some none => .exc "TypeError"
          | some (some s) =>
            if pyIn filename s then
              match r.cells.get? 2 with
              | none => .exc "IndexError"
              | some c2 =>
                match c2.str with
                | none => .exc "AttributeError"
                | some ds => .ok (some (pyStrip ds))
            else .ok none

/-- The mtime-fallback loop over all rows; a later matching row overwrites
an earlier one, exactly as the Python loop keeps assigning `self.mtime`. -/
def mtimeScan (filename : String) : List Row → Option String → Py (Option String)
  | [], acc => .ok acc
  | r :: rest, acc =>
    match scanRow filename r with
    | .exc e => .exc e
    | .ok none => mtimeScan filename rest acc
    | .ok (some ds) => mtimeScan filename rest (some ds)

/-- Lines 77-83: scan the re-fetched parent listing for `filename`'s row
and parse its last-modified column; `ok none` when no row matched and
`self.mtime` stays `None`. -/
def mtimeFallback (filename : String) (page : List Row) : Py (Option MTimeVal) :=
  match mtimeScan filename page none with
  | .exc e => .exc e
  | .ok none => .ok none
  | .ok (some ds) => .ok (some (.listingTime ds))

/-- Outcome of metadata resolution: the record (or the exception that
escaped `__init__`), the updated session cache, and the requests issued. -/
structure ResolveOut where
  res : Py FileRec
  cache : NsCache
  reqs : List Req

/-- `File.__init__` (lines 43-86): split the path, obtain the parent
listing through the session cache, decide `is_dir`, probe the URL, read
size and mtime from the probe headers, defaulting mtime to the current
time except for directories with `dirmtime` set, in which case it is left
unset and the parent listing page is re-fetched (bypassing the cache) and
scanned for the name's last-modified column. A failed probe yields size 0
and no mtime. -/
def resolveMeta (root path : String) (dirmtime : Bool)
    (pageFor : String → List Row) (probe : ProbeResp)
    (cache : NsCache) : ResolveOut :=
  let parent_dir := parentOf path
  let filename := fileNameOf path
  let o := nsLookup pageFor cache parent_dir
  match o.res with
  | .exc e => ⟨.exc e, o.cache, o.reqs⟩
  | .ok listing =>
    let d := isDirName listing filename
    let reqs1 := o.reqs ++ [.headReq (urlOf root path d)]
    if probe.status = 200 then
      let size := probe.contentLength.getD 0
      match probe.lastModified with
      | some s => ⟨.ok ⟨d, size, some (.headerTime s)⟩, o.cache, reqs1⟩
      | none =>
        if d && dirmtime then
          match mtimeFallback filename (pageFor parent_dir) with
          | .exc e => ⟨.exc e, o.cache, reqs1 ++ [.listGet parent_dir]⟩
          | .ok mt => ⟨.ok ⟨d, size, mt⟩, o.cache, reqs1 ++ [.listGet parent_dir]⟩
        else ⟨.ok ⟨d, size, some .nowTime⟩, o.cache, reqs1⟩
    else ⟨.ok ⟨d, 0, none⟩, o.cache, reqs1⟩

/-! ## Concrete fixtures used by counterexamples and witnesses -/

/-- A cell holding only an icon with the given alt text. -/
def cellImg (alt : String) : Cell := ⟨some (some alt), none, none⟩

/-- A cell holding only an anchor with the given link text. -/
def cellLink (s : String) : Cell := ⟨none, some (some s), none⟩

/-- A cell holding only plain text (the last-modified column). -/
def cellDate (s : String) : Cell := ⟨none, none, some s⟩

/-- A full listing row: icon, link, last-modified columns. -/
def rowOf (alt link date : String) : Row :=
  ⟨[cellImg alt, cellLink link, cellDate date]⟩

/-- The parent-directory row every auto-index page carries. -/
def parentRow : Row := rowOf "[PARENTDIR]" "/" "-"

/-- Listing page of the mount root holding one file, `notes.txt`,
modified 2023-06-01 10:00. -/
def notesPage : List Row :=
  [parentRow, rowOf "[TXT]" "notes.txt" " 2023-06-01 10:00 "]

/-- A server whose every listing URL serves `notesPage`. -/
def notesPageFor : String → List Row := fun _ => notesPage

/-- Listing page of the mount root holding one directory, `sub`,
modified 2024-01-02 03:04. -/
def subPage : List Row :=
  [parentRow, rowOf "[DIR]" "sub/" "2024-01-02 03:04"]

/-- A server whose every listing URL serves `subPage`. -/
def subPageFor : String → List Row := fun _ => subPage

/-- A row whose single `td` holds no icon image at all. -/
def badRow1 : Row := ⟨[⟨none, none, none⟩]⟩

/-- A row whose link cell holds no anchor. -/
def badRow2 : Row := ⟨[cellImg "[TXT]", ⟨none, none, none⟩, cellDate "x"]⟩

/-- A well-formed page with the parent row, a directory and a file. -/
def wfPage : List Row :=
  [parentRow, rowOf "[DIR]" "subdir/" "2024-01-02 03:04",
   rowOf "[TXT]" "notes.txt" "2023-06-01 10:00"]

/-! Helper lemmas evaluating `fileRead` one branch at a time. -/

/-- Single-block read with the block already cached: no request, cache
unchanged, result sliced from the cached buffer. -/
theorem fileRead_single_hit (server : Nat × Nat → RangeResp) (p sz : Nat)
    (c : BlockCache) (len off : Nat) (buf : Bytes)
    (hb : off / 1024 / 1024 = (off + len) / 1024 / 1024)
    (hc : c (off / 1024 / 1024) = some buf) :
    fileRead server p sz c len off =
      ⟨.ok (pySlice buf (offset_from_mb off) (offset_from_mb off + len)), c, []⟩ := by
  simp only [fileRead]
  rw [if_pos hb, hc]

/-- Single-block read with the block absent from the cache: one request for
the short block range, then the status test. -/
theorem fileRead_single_miss (server : Nat × Nat → RangeResp) (p sz : Nat)
    (c : BlockCache) (len off : Nat)
    (hb : off / 1024 / 1024 = (off + len) / 1024 / 1024)
    (hc : c (off / 1024 / 1024) = none) :
    fileRead server p sz c len off =
      (if (server (off / 1024 / 1024 * 1024 * 1024,
              off / 1024 / 1024 * 1024 * 1024 + 1023 * 1024)).status = 200 ∨
          (server (off / 1024 / 1024 * 1024 * 1024,
              off / 1024 / 1024 * 1024 * 1024 + 1023 * 1024)).status = 206 then
        ⟨.ok (pySlice (server (off / 1024 / 1024 * 1024 * 1024,
                off / 1024 / 1024 * 1024 * 1024 + 1023 * 1024)).content
              (offset_from_mb off) (offset_from_mb off + len)),
         fun i => if i = off / 1024 / 1024 then
             some (server (off / 1024 / 1024 * 1024 * 1024,
                 off / 1024 / 1024 * 1024 * 1024 + 1023 * 1024)).content
           else c i,
         [(off / 1024 / 1024 * 1024 * 1024,
           off / 1024 / 1024 * 1024 * 1024 + 1023 * 1024)]⟩
       else
        ⟨.exc "FuseOSError(EIO)", c,
         [(off / 1024 / 1024 * 1024 * 1024,
           off / 1024 / 1024 * 1024 * 1024 + 1023 * 1024)]⟩) := by
  simp only [fileRead]
  rw [if_pos hb, hc]

/-- Multi-block read: one request for the exact clamped span, then the status
test that (faithfully to line 129) consults the probe status. -/
theorem fileRead_multi (server : Nat × Nat → RangeResp) (p sz : Nat)
    (c : BlockCache) (len off : Nat)
    (hb : off / 1024 / 1024 ≠ (off + len) / 1024 / 1024) :
    fileRead server p sz c len off =
      (if p = 200 ∨ (server (off, min sz (off + len - 1))).status = 206 then
        ⟨.ok (server (off, min sz (off + len - 1))).content, c,
         [(off, min sz (off + len - 1))]⟩
       else
        ⟨.exc "FuseOSError(EIO)", c, [(off, min sz (off + len - 1))]⟩) := by
  simp only [fileRead]
  rw [if_neg hb]

/-- Slicing a `take n` buffer from position `n` or later yields nothing. -/
theorem pySlice_of_take_le (l : Bytes) (n i j : Nat) (h : n ≤ i) :
    pySlice (l.take n) i j = [] := by
  unfold pySlice
  rw [List.drop_eq_nil_of_le (le_trans (List.length_take_le _ _) h), List.take_nil]

/-- C10: the within-block offset computed on line 101,
`(((offset // 1024) % 1024) * 1024) + (offset % 1024)`, equals
`offset mod 1048576`, so the single-block slice starts exactly at the
request's offset within the cached block. -/
theorem offset_from_mb_eq_mod (offset : Nat) :
    offset_from_mb offset = offset % 1048576 := by
  unfold offset_from_mb
  omega

/-- C2 counterexample: a first single-block read of bytes 0-9 requests the
range 0-1047552, not the full-block range 0-1048575 claimed. -/
theorem singleBlock_range_cex :
    (fileRead tinyServer 200 2097152 emptyBC 10 0).reqs = [(0, 1047552)] ∧
    (fileRead tinyServer 200 2097152 emptyBC 10 0).reqs ≠ [(0, 1048575)] := by
  constructor <;> decide

/-- C2 amended: an uncached single-block read issues exactly one range GET,
for `[blockStart*1048576, blockStart*1048576 + 1023*1024]` (1023·1024 =
1047552, i.e. 1023 bytes short of the block end), and stores the returned
body keyed by `blockStart` on HTTP status 200 or 206. -/
theorem singleBlock_fetch_range (server : Nat × Nat → RangeResp) (p sz : Nat)
    (c : BlockCache) (len off : Nat)
    (hb : off / 1024 / 1024 = (off + len) / 1024 / 1024)
    (hc : c (off / 1024 / 1024) = none) :
    (fileRead server p sz c len off).reqs =
      [(off / 1024 / 1024 * 1024 * 1024,
        off / 1024 / 1024 * 1024 * 1024 + 1023 * 1024)] ∧
    ((server (off / 1024 / 1024 * 1024 * 1024,
              off / 1024 / 1024 * 1024 * 1024 + 1023 * 1024)).status = 200 ∨
     (server (off / 1024 / 1024 * 1024 * 1024,
              off / 1024 / 1024 * 1024 * 1024 + 1023 * 1024)).status = 206 →
     (fileRead server p sz c len off).cache (off / 1024 / 1024) =
       some (server (off / 1024 / 1024 * 1024 * 1024,
                     off / 1024 / 1024 * 1024 * 1024 + 1023 * 1024)).content) := by
  rw [fileRead_single_miss server p sz c len off hb hc]
  by_cases hs : (server (off / 1024 / 1024 * 1024 * 1024,
      off / 1024 / 1024 * 1024 * 1024 + 1023 * 1024)).status = 200 ∨
      (server (off / 1024 / 1024 * 1024 * 1024,
      off / 1024 / 1024 * 1024 * 1024 + 1023 * 1024)).status = 206
  · rw [if_pos hs]
    exact ⟨rfl, fun _ => by simp⟩
  · rw [if_neg hs]
    exact ⟨rfl, fun h => absurd h hs⟩

/-- Witness for `singleBlock_fetch_range`: reading bytes 0-9 of an uncached
file stores the fetched body as block 0. -/
theorem singleBlock_fetch_range_witness :
    (fileRead tinyServer 200 2097152 emptyBC 10 0).cache 0 = some [5, 5] :=
  (singleBlock_fetch_range tinyServer 200 2097152 emptyBC 10 0 rfl rfl).2
    (Or.inr rfl)

/-- C7: a cached block is never overwritten or evicted by any later read;
multi-block reads never modify the cache; and for a cold single-block read
that succeeds, the call issues exactly one range fetch and an immediately
repeated read of the same region issues none. -/
theorem blockCache_invariant (server : Nat × Nat → RangeResp) (p sz : Nat)
    (c : BlockCache) (len off : Nat) :
    (∀ b buf, c b = some buf → (fileRead server p sz c len off).cache b = some buf) ∧
    (off / 1024 / 1024 ≠ (off + len) / 1024 / 1024 →
      (fileRead server p sz c len off).cache = c) ∧
    (off / 1024 / 1024 = (off + len) / 1024 / 1024 →
      c (off / 1024 / 1024) = none →
      ∀ x, (fileRead server p sz c len off).res = .ok x →
        (fileRead server p sz c len off).reqs.length = 1 ∧
        (fileRead server p sz (fileRead server p sz c len off).cache len off).reqs = []) := by
  by_cases hb : off / 1024 / 1024 = (off + len) / 1024 / 1024
  · cases hc : c (off / 1024 / 1024) with
    | some buf0 =>
      rw [fileRead_single_hit server p sz c len off buf0 hb hc]
      exact ⟨fun b buf h => h, fun hb2 => absurd hb hb2,
        fun _ hc2 => absurd hc2 (by simp)⟩
    | none =>
      rw [fileRead_single_miss server p sz c len off hb hc]
      by_cases hs : (server (off / 1024 / 1024 * 1024 * 1024,
          off / 1024 / 1024 * 1024 * 1024 + 1023 * 1024)).status = 200 ∨
          (server (off / 1024 / 1024 * 1024 * 1024,
          off / 1024 / 1024 * 1024 * 1024 + 1023 * 1024)).status = 206
      · rw [if_pos hs]
        refine ⟨fun b buf h => ?_, fun hb2 => absurd hb hb2, fun _ _ x _ => ?_⟩
        · by_cases hbm : b = off / 1024 / 1024
          · rw [hbm] at h; rw [h] at hc; exact absurd hc (by simp)
          · simpa [hbm] using h
        · refine ⟨rfl, ?_⟩
          rw [fileRead_single_hit server p sz _ len off
              (server (off / 1024 / 1024 * 1024 * 1024,
                off / 1024 / 1024 * 1024 * 1024 + 1023 * 1024)).content hb (by simp)]
      · rw [if_neg hs]
        exact ⟨fun b buf h => h, fun hb2 => absurd hb hb2,
          fun _ _ x hx => absurd hx (by simp)⟩
  · rw [fileRead_multi server p sz c len off hb]
    by_cases hs : p = 200 ∨ (server (off, min sz (off + len - 1))).status = 206
    · rw [if_pos hs]
      exact ⟨fun b buf h => h, fun _ => rfl, fun hb2 => absurd hb2 hb⟩
    · rw [if_neg hs]
      exact ⟨fun b buf h => h, fun _ => rfl, fun hb2 => absurd hb2 hb⟩

/-- Witness for `blockCache_invariant`: a cold 2-byte read at offset 0
fetches once, and the repeated read fetches nothing. -/
theorem blockCache_invariant_witness :
    (fileRead tinyServer 200 100 emptyBC 2 0).reqs.length = 1 ∧
    (fileRead tinyServer 200 100
      (fileRead tinyServer 200 100 emptyBC 2 0).cache 2 0).reqs = [] :=
  (blockCache_invariant tinyServer 200 100 emptyBC 2 0).2.2 rfl rfl [5, 5] rfl

/-- C1 (failing input): on a 2 MiB file served by a fully range-compliant
server, the in-bounds single-block read `read(length := 100,
offset := 1047553)` silently returns the empty byte string — the cached
block holds only bytes 0-1047552, so the slice starting at 1047553 is empty —
although the requested range lies entirely inside the file, whose correct
content for that range has 100 bytes. -/
theorem read_truncates_in_block (data : Bytes) (h : 2097152 ≤ data.length) :
    (fileRead (rangeServer data) 200 data.length emptyBC 100 1047553).res = .ok [] ∧
    (pySlice data 1047553 1047653).length = 100 := by
  constructor
  · rw [fileRead_single_miss (rangeServer data) 200 data.length emptyBC 100 1047553
        (by norm_num) rfl]
    have hs : (rangeServer data
        (1047553 / 1024 / 1024 * 1024 * 1024,
         1047553 / 1024 / 1024 * 1024 * 1024 + 1023 * 1024)).status = 200 ∨
        (rangeServer data
        (1047553 / 1024 / 1024 * 1024 * 1024,
         1047553 / 1024 / 1024 * 1024 * 1024 + 1023 * 1024)).status = 206 :=
      Or.inr rfl
    rw [if_pos hs]
    have hcontent : (rangeServer data
        (1047553 / 1024 / 1024 * 1024 * 1024,
         1047553 / 1024 / 1024 * 1024 * 1024 + 1023 * 1024)).content =
        data.take 1047553 := by
      norm_num [rangeServer, pySlice]
    rw [hcontent]
    rw [show offset_from_mb 1047553 = 1047553 from by norm_num [offset_from_mb]]
    rw [pySlice_of_take_le data 1047553 1047553 (1047553 + 100) le_rfl]
  · unfold pySlice
    rw [List.length_take, List.length_drop]
    omega

/-- Witness for `read_truncates_in_block` on a concrete 2 MiB file. -/
theorem read_truncates_in_block_witness :
    2097152 ≤ (List.replicate 2097152 0).length ∧
    ((fileRead (rangeServer (List.replicate 2097152 0)) 200
        (List.replicate 2097152 0).length emptyBC 100 1047553).res = .ok [] ∧
      (pySlice (List.replicate 2097152 0) 1047553 1047653).length = 100) :=
  ⟨ge_of_eq (List.length_replicate 2097152 0),
   read_truncates_in_block (List.replicate 2097152 0)
     (ge_of_eq (List.length_replicate 2097152 0))⟩

/-- C3 (failing input): the multi-block success test on line 129 reads
`self.r.status_code` — the HEAD probe's status from `__init__` — instead of
the range response's. With probe status 200, a multi-block read whose range
fetch returns 404 hands the 3-byte error page back as file data; with probe
status 404, a multi-block range fetch that succeeds with 200 raises EIO. -/
theorem multiBlock_status_bug :
    (fileRead errServer 200 2097152 emptyBC 1048581 0).res = .ok [9, 9, 9] ∧
    (fileRead okServer 404 2097152 emptyBC 1048581 0).res =
      .exc "FuseOSError(EIO)" := by
  constructor <;> rfl

/-! ## Listing-parser theorems -/

/-- On a string without a leading separator, `dropWhile` of separators is
the identity. -/
theorem dropWhile_eq_self_of_noLead (s : String) (h : noLead s = true) :
    s.data.dropWhile (· == '/') = s.data := by
  cases hd : s.data with
  | nil => rfl
  | cons c cs =>
    have hc : (c == '/') = false := by
      simp only [noLead, hd] at h
      simpa using h
    simp [List.dropWhile, hc]

/-- On link texts without a leading separator, Python's two-sided
`strip("/")` agrees with the claim's trailing-only strip. -/
theorem pyStripSlash_eq_stripTrailing (s : String) (h : noLead s = true) :
    pyStripSlash s = stripTrailing s := by
  unfold pyStripSlash stripTrailing
  rw [dropWhile_eq_self_of_noLead s h]

/-- The parsing loop on a well-formed page appends exactly the spec-side
entries of the kept rows. -/
theorem contentsAux_wf (page : List Row) (acc : Listing)
    (h : wellFormed page = true) :
    contentsAux page acc =
      .ok (acc ++ (page.filter fun r => altOf r != "[PARENTDIR]").map entrySpec) := by
  induction page generalizing acc with
  | nil => simp [contentsAux]
  | cons r rest ih =>
    rw [wellFormed, List.all_cons, Bool.and_eq_true] at h
    obtain ⟨h1, h2⟩ := h
    cases hc0 : r.cells.head? with
    | none => simp [wfRow, hc0] at h1
    | some c0 =>
      cases himg : c0.img with
      | none => simp [wfRow, hc0, himg] at h1
      | some oalt =>
        cases oalt with
        | none => simp [wfRow, hc0, himg] at h1
        | some alt =>
          by_cases hpd : alt = "[PARENTDIR]"
          · have hbe : (alt == "[PARENTDIR]") = true := by simp [hpd]
            have hpr : processRow r = .ok none := by
              simp [processRow, hc0, himg, hbe]
            have hal : (altOf r != "[PARENTDIR]") = false := by
              simp [altOf, hc0, himg, hpd]
            simp only [contentsAux, hpr]
            rw [List.filter_cons, hal]
            exact ih acc h2
          · have hbe : (alt == "[PARENTDIR]") = false := by simp [hpd]
            simp only [wfRow, hc0, himg, hbe, Bool.false_or] at h1
            cases hg : r.cells.get? 1 with
            | none => rw [hg] at h1; simp at h1
            | some c1 =>
              rw [hg] at h1
              simp only [] at h1
              have h1a : (match c1.a with
                  | some (some s) => noLead s
                  | _ => false) = true := by simpa using h1
              clear h1
              cases ha : c1.a with
              | none => rw [ha] at h1a; simp at h1a
              | some oa =>
                cases oa with
                | none => rw [ha] at h1a; simp at h1a
                | some s =>
                  rw [ha] at h1a
                  have h1 : noLead s = true := by simpa using h1a
                  have hg2 : r.cells[1]? = some c1 := by
                    rw [← List.get?_eq_getElem?]; exact hg
                  have hpr : processRow r =
                      .ok (some (pyStripSlash s, alt == "[DIR]")) := by
                    simp [processRow, hc0, himg, hbe, hg2, ha]
                  have hent : entrySpec r = (pyStripSlash s, alt == "[DIR]") := by
                    rw [pyStripSlash_eq_stripTrailing s h1]
                    simp [entrySpec, altOf, linkTextOf, hc0, himg, hg2, ha]
                  have hal : (altOf r != "[PARENTDIR]") = true := by
                    simp [altOf, hc0, himg, hpd]
                  simp only [contentsAux, hpr]
                  rw [List.filter_cons, hal]
                  rw [ih (acc ++ [(pyStripSlash s, alt == "[DIR]")]) h2]
                  simp [hent]

/-- C8: on every well-formed directory-index page the parse returns the
synthetic "." and ".." directory entries followed by one entry per row
whose icon alt text is not `[PARENTDIR]`, each entry being the row's link
text with trailing separators stripped and flagged as a directory exactly
when the icon alt text is `[DIR]`. -/
theorem parse_listing (page : List Row) (h : wellFormed page = true) :
    contents page = .ok ((".", true) :: ("..", true) ::
      (page.filter fun r => altOf r != "[PARENTDIR]").map entrySpec) := by
  rw [contents, contentsAux_wf page _ h]
  rfl

/-- Witness for `parse_listing` on a concrete three-row page. -/
theorem parse_listing_witness :
    wellFormed wfPage = true ∧
    contents wfPage = .ok [(".", true), ("..", true),
      ("subdir", true), ("notes.txt", false)] :=
  ⟨by decide, parse_listing wfPage (by decide)⟩

/-- C9 counterexample: a row with a `td` but no icon image crashes with an
unhandled `TypeError` (from `None['alt']`), and a link cell without an
anchor crashes with an unhandled `AttributeError` (from `None.string`) —
there is no `ParseError` anywhere in the code, and nothing is caught. -/
theorem parse_crash_cex :
    contents [badRow1] = .exc "TypeError" ∧
    contents [badRow2] = .exc "AttributeError" := by
  exact ⟨by decide, by decide⟩

/-- C9 amended: on a row whose first cell has no icon image the parse
raises `TypeError`, and on a row whose link cell has no anchor it raises
`AttributeError`; either exception propagates unhandled regardless of the
remaining rows (the code defines no ParseError and catches nothing). -/
theorem parse_crash_propagates (rest : List Row) (c0 c1 : Cell) (alt : String)
    (h0 : c0.img = none) (h1 : c1.a = none)
    (h2 : (alt == "[PARENTDIR]") = false) :
    contents (⟨[c0]⟩ :: rest) = .exc "TypeError" ∧
    contents (⟨[cellImg alt, c1]⟩ :: rest) = .exc "AttributeError" := by
  constructor
  · simp [contents, contentsAux, processRow, h0]
  · simp [contents, contentsAux, processRow, cellImg, h1, h2]

/-- Witness for `parse_crash_propagates` on concrete one-row pages. -/
theorem parse_crash_propagates_witness :
    contents [⟨[(⟨none, none, none⟩ : Cell)]⟩] = .exc "TypeError" ∧
    contents [⟨[cellImg "[TXT]", (⟨none, none, none⟩ : Cell)]⟩] =
      .exc "AttributeError" :=
  parse_crash_propagates [] ⟨none, none, none⟩ ⟨none, none, none⟩ "[TXT]"
    rfl rfl (by decide)

/-! ## Metadata-resolver theorems -/

/-- C4 counterexample: for the file `notes.txt` whose probe returns 200
with content-length 500000 and no last-modified header, the resolver sets
mtime to the current time (`time.time()`), not to the listing row's
`2023-06-01 10:00`, and never re-fetches the parent listing (exactly one
listing GET, the cache-populating one). -/
theorem file_mtime_cex :
    (resolveMeta "http://h" "notes.txt" false notesPageFor
      ⟨200, some 500000, none⟩ emptyNs).res =
      .ok ⟨false, 500000, some .nowTime⟩ ∧
    MTimeVal.nowTime ≠ MTimeVal.listingTime "2023-06-01 10:00" ∧
    countListGet "" (resolveMeta "http://h" "notes.txt" false notesPageFor
      ⟨200, some 500000, none⟩ emptyNs).reqs = 1 := by
  exact ⟨by decide, by decide, by decide⟩

/-- C4 amended: for a path that is not a directory of its parent listing,
a 200 probe without a last-modified header yields mtime = current time and
size from content-length, and the resolver issues no listing re-fetch —
its trace is the cache lookup's requests plus the HEAD probe only (the
listing fallback runs only for directories with `dirmtime` set). -/
theorem file_mtime_defaults_now (root path : String)
    (pageFor : String → List Row) (cl : Option Nat) (cache : NsCache)
    (dm : Bool) (L : Listing)
    (h1 : (nsLookup pageFor cache (parentOf path)).res = .ok L)
    (h2 : isDirName L (fileNameOf path) = false) :
    (resolveMeta root path dm pageFor ⟨200, cl, none⟩ cache).res =
      .ok ⟨false, cl.getD 0, some .nowTime⟩ ∧
    (resolveMeta root path dm pageFor ⟨200, cl, none⟩ cache).reqs =
      (nsLookup pageFor cache (parentOf path)).reqs ++
        [.headReq (urlOf root path false)] := by
  constructor <;> simp [resolveMeta, h1, h2]

/-- Witness for `file_mtime_defaults_now` at the `notes.txt` fixture. -/
theorem file_mtime_defaults_now_witness :
    (resolveMeta "http://h" "notes.txt" true notesPageFor
      ⟨200, some 500000, none⟩ emptyNs).res =
      .ok ⟨false, 500000, some .nowTime⟩ ∧
    (resolveMeta "http://h" "notes.txt" true notesPageFor
      ⟨200, some 500000, none⟩ emptyNs).reqs =
      (nsLookup notesPageFor emptyNs (parentOf "notes.txt")).reqs ++
        [.headReq (urlOf "http://h" "notes.txt" false)] :=
  file_mtime_defaults_now "http://h" "notes.txt" notesPageFor (some 500000)
    emptyNs true [(".", true), ("..", true), ("notes.txt", false)]
    (by decide) (by decide)

/-- C5 counterexample: for the directory `sub` with `dirmtime = true` and a
200 probe without a last-modified header, the resolver does not leave the
mtime unset — the fallback scan of the parent listing finds the `sub/` row
and sets mtime from its `2024-01-02 03:04` column. -/
theorem dir_mtime_cex :
    (resolveMeta "h" "sub" true subPageFor ⟨200, none, none⟩ emptyNs).res =
      .ok ⟨true, 0, some (.listingTime "2024-01-02 03:04")⟩ ∧
    some (MTimeVal.listingTime "2024-01-02 03:04") ≠ (none : Option MTimeVal) := by
  exact ⟨by decide, by decide⟩

/-- C5 amended: for a directory of its parent listing, a 200 probe without
a last-modified header yields mtime = current time when `dirmtime` is
false; when `dirmtime` is true the mtime is first left unset and then the
fallback scan of the parent listing page decides it — it stays unset only
when no row matches the name. -/
theorem dir_mtime_resolution (root path : String)
    (pageFor : String → List Row) (cl : Option Nat) (cache : NsCache)
    (dm : Bool) (L : Listing)
    (h1 : (nsLookup pageFor cache (parentOf path)).res = .ok L)
    (h2 : isDirName L (fileNameOf path) = true) :
    (resolveMeta root path dm pageFor ⟨200, cl, none⟩ cache).res =
      (if dm then
        (match mtimeFallback (fileNameOf path) (pageFor (parentOf path)) with
         | .ok mt => .ok ⟨true, cl.getD 0, mt⟩
         | .exc e => .exc e)
       else .ok ⟨true, cl.getD 0, some MTimeVal.nowTime⟩) := by
  cases dm with
  | false => simp [resolveMeta, h1, h2]
  | true =>
    cases hf : mtimeFallback (fileNameOf path) (pageFor (parentOf path)) with
    | ok mt => simp [resolveMeta, h1, h2, hf]
    | exc e => simp [resolveMeta, h1, h2, hf]

/-- Witness for `dir_mtime_resolution` at the `sub` fixture with
`dirmtime = true`: the fallback fills the mtime from the listing row. -/
theorem dir_mtime_resolution_witness :
    (resolveMeta "h" "sub" true subPageFor ⟨200, none, none⟩ emptyNs).res =
      .ok ⟨true, 0, some (.listingTime "2024-01-02 03:04")⟩ := by
  have h := dir_mtime_resolution "h" "sub" subPageFor none emptyNs true
    [(".", true), ("..", true), ("sub", true)] (by decide) (by decide)
  rw [h]
  decide

/-- C6 counterexample: one single resolve call — the directory `sub` with
`dirmtime = true` and a probe lacking a last-modified header — issues two
listing fetch-and-parses for its parent path "": the cache-populating one
and the fallback re-fetch, contradicting "at most one listing
fetch-and-parse per path". -/
theorem listing_fetch_cex :
    countListGet ""
      (resolveMeta "h" "sub" true subPageFor ⟨200, none, none⟩ emptyNs).reqs = 2 ∧
    ¬(countListGet ""
      (resolveMeta "h" "sub" true subPageFor ⟨200, none, none⟩ emptyNs).reqs ≤ 1) := by
  exact ⟨by decide, by decide⟩

/-- A trace count distributes over concatenated traces. -/
theorem countListGet_append (p : String) (a b : List Req) :
    countListGet p (a ++ b) = countListGet p a + countListGet p b :=
  List.countP_append _ _ _

/-- Once a path is cached, any further lookup sequence neither fetches it
again nor changes its stored listing. -/
theorem nsRun_cached (pageFor : String → List Row) (c : NsCache)
    (ps : List String) (p : String) (L : Listing) (hp : c p = some L) :
    (nsRun pageFor c ps).cache p = some L ∧
    countListGet p (nsRun pageFor c ps).reqs = 0 := by
  induction ps generalizing c with
  | nil => exact ⟨hp, rfl⟩
  | cons q ps ih =>
    have key : (nsLookup pageFor c q).cache p = some L ∧
        countListGet p (nsLookup pageFor c q).reqs = 0 := by
      cases hcq : c q with
      | some l => exact ⟨by simpa [nsLookup, hcq], by simp [nsLookup, hcq, countListGet]⟩
      | none =>
        have hqp : q ≠ p := fun he => by rw [he, hp] at hcq; cases hcq
        cases hct : contents (pageFor q) with
        | ok l =>
          refine ⟨?_, ?_⟩
          · simp only [nsLookup, hcq, hct]
            rw [if_neg (fun he => hqp he.symm)]
            exact hp
          · simp [nsLookup, hcq, hct, countListGet, List.countP_cons,
              (by simpa using hqp : (q == p) = false)]
        | exc e =>
          refine ⟨by simpa [nsLookup, hcq, hct], ?_⟩
          simp [nsLookup, hcq, hct, countListGet, List.countP_cons,
            (by simpa using hqp : (q == p) = false)]
    have step := ih (nsLookup pageFor c q).cache key.1
    refine ⟨step.1, ?_⟩
    simp only [nsRun, countListGet_append, key.2, step.2]

/-- C6 amended: across any sequence of session-cache lookups, a path whose
page parses successfully is fetched at most once, and once its listing is
stored the cache entry is never replaced and no further listing GET for it
is issued. (A single `resolve` with the `dirmtime` fallback can still
issue extra raw listing GETs for the parent path — see the
counterexample — so the bound holds for the cache mechanism, not for
arbitrary resolve traffic.) -/
theorem ns_fetch_once (pageFor : String → List Row) (c : NsCache)
    (ps : List String) (p : String) (L0 : Listing)
    (hok : contents (pageFor p) = .ok L0) :
    countListGet p (nsRun pageFor c ps).reqs ≤ 1 ∧
    (∀ L, c p = some L →
      (nsRun pageFor c ps).cache p = some L ∧
      countListGet p (nsRun pageFor c ps).reqs = 0) := by
  refine ⟨?_, fun L hp => nsRun_cached pageFor c ps p L hp⟩
  induction ps generalizing c with
  | nil => simp [nsRun, countListGet]
  | cons q ps ih =>
    rw [nsRun]
    simp only [countListGet_append]
    cases hcq : c q with
    | some l =>
      have : nsLookup pageFor c q = ⟨.ok l, c, []⟩ := by simp [nsLookup, hcq]
      rw [this]
      simpa [countListGet] using ih c
    | none =>
      cases hct : contents (pageFor q) with
      | ok l =>
        have hlk : nsLookup pageFor c q =
            ⟨.ok l, fun x => if x = q then some l else c x, [.listGet q]⟩ := by
          simp [nsLookup, hcq, hct]
        rw [hlk]
        by_cases hqp : q = p
        · subst hqp
          have hcached := nsRun_cached pageFor
            (fun x => if x = q then some l else c x) ps q l (by simp)
          have h1 : countListGet q [Req.listGet q] = 1 := by
            simp [countListGet]
          show countListGet q [Req.listGet q] +
            countListGet q (nsRun pageFor (fun x => if x = q then some l else c x) ps).reqs ≤ 1
          rw [h1, hcached.2]
        · have : countListGet p [Req.listGet q] = 0 := by
            simp [countListGet, List.countP_cons, (by simpa using hqp : (q == p) = false)]
          rw [this]
          simpa using ih (fun x => if x = q then some l else c x)
      | exc e =>
        have hlk : nsLookup pageFor c q = ⟨.exc e, c, [.listGet q]⟩ := by
          simp [nsLookup, hcq, hct]
        rw [hlk]
        by_cases hqp : q = p
        · rw [hqp] at hct
          rw [hok] at hct
          cases hct
        · have : countListGet p [Req.listGet q] = 0 := by
            simp [countListGet, List.countP_cons, (by simpa using hqp : (q == p) = false)]
          rw [this]
          simpa using ih c


/-- Witness for `ns_fetch_once`: three lookups, two of them for the root
path, fetch it at most once. -/
theorem ns_fetch_once_witness :
    countListGet "" (nsRun subPageFor emptyNs ["", "x", ""]).reqs ≤ 1 :=
  (ns_fetch_once subPageFor emptyNs ["", "x", ""] ""
    [(".", true), ("..", true), ("sub", true)] (by decide)).1

end HTTPfs
